import Mathlib

/-!
Verification development for the Bottle ORM repository.

The definitions below are a shallow embedding of the Rust sources under
`src/bottle-orm` and `src/bottle-orm-macro`:

* `database.rs`   — drivers, table creation, schema sync, foreign keys;
* `transaction.rs` — the transaction handle and its lifecycle;
* `migration.rs`  — the two-pass migrator;
* `pagination.rs` — the pagination helper;
* `derive_model.rs` / `derive_anyrow.rs` — the generated `to_map` and the
  generated by-name row decoding routines;
* the filter tree (`query_builder.rs` is not present in the source tree; its
  `FilterNode` model is taken from the specification, as marked below).

Rust `HashMap` insertions keyed by distinct struct-field names are modelled
as association lists; the `heck` crate's snake-case normalisation is kept
abstract as a `norm : String → String` parameter, since no claim depends on
its internals; backend I/O is modelled by explicit result values and, for
the schema synchroniser, by an explicit catalog state.
-/

/-- The `sqlx::Error` variants this embedding distinguishes.  `workerCrashed`
is the variant `transaction.rs` returns for operations on a closed
transaction; `columnNotFound`/`columnDecode`/`decode` model the error shapes
produced by the generated row decoders. -/
inductive SqlxError where
  | workerCrashed
  | rowNotFound
  | columnNotFound (name : String)
  | columnDecode (index : String) (message : String)
  | decode (message : String)
  deriving Repr, DecidableEq

/-- `Drivers` from `database.rs`. -/
inductive Drivers where
  | Postgres
  | MySQL
  | SQLite
  deriving Repr, DecidableEq

/-- `ColumnInfo` from `model.rs` (the revision used by `database.rs`). -/
structure ColumnInfo where
  name : String
  sql_type : String
  is_primary_key : Bool
  is_nullable : Bool
  create_time : Bool
  update_time : Bool
  unique : Bool
  index : Bool
  foreign_table : Option String
  foreign_key : Option String
  deriving Repr, DecidableEq

/-- `Pagination` from `pagination.rs`: page, limit and safety ceiling. -/
structure Pagination where
  page : Nat
  limit : Nat
  max_limit : Nat
  deriving Repr, DecidableEq

namespace Pagination

/-- `Pagination::new_with_limit`: requested sizes above the ceiling fall back
to the constant 10, everything else passes through. -/
def new_with_limit (page limit max_limit : Nat) : Pagination :=
  let f_limit := if limit > max_limit then 10 else limit
  ⟨page, f_limit, max_limit⟩

/-- `Pagination::new`: default ceiling 100. -/
def new (page limit : Nat) : Pagination :=
  new_with_limit page limit 100

/-- The limit/offset pair `Pagination::apply` installs on the query builder. -/
structure Applied where
  limit : Nat
  offset : Nat
  deriving Repr, DecidableEq

/-- `Pagination::apply`: re-checks the ceiling (again falling back to 10) and
sets `limit` and `offset = page * limit` on the builder. -/
def apply (p : Pagination) : Applied :=
  let l := if p.limit > p.max_limit then 10 else p.limit
  ⟨l, p.page * l⟩

end Pagination

/-- A struct field's contribution to `to_map`, as generated by
`derive_model.rs` / `derive_anyrow.rs`: a non-nullable field carries its
`to_string` serialisation, an `Option`-typed field carries an optional one. -/
inductive FieldValue where
  | required (v : String)
  | optional (v : Option String)
  deriving Repr, DecidableEq

/-- The generated `to_map` body (`derive_model.rs` lines 113–135, and the
identical `map_inserts` in `derive_anyrow.rs` lines 217–242): non-nullable
fields are always inserted, `Option` fields only under `if let Some`. -/
def to_map : List (String × FieldValue) → List (String × String)
  | [] => []
  | (n, FieldValue.required v) :: rest => (n, v) :: to_map rest
  | (n, FieldValue.optional (some v)) :: rest => (n, v) :: to_map rest
  | (_, FieldValue.optional none) :: rest => to_map rest

/-- The SQL text of the `ADD CONSTRAINT` statement built by
`Database::assign_foreign_keys` (names already snake-cased). -/
def fkConstraintStmt (tn ft fk cn : String) : String :=
  "ALTER TABLE \"" ++ tn ++ "\" ADD CONSTRAINT \"fk_" ++ tn ++ "_" ++ ft ++
    "_" ++ cn ++ "\" FOREIGN KEY (\"" ++ cn ++ "\") REFERENCES \"" ++ ft ++
    "\"(\"" ++ fk ++ "\")"

/-- `Database::assign_foreign_keys` (`database.rs` lines 280–296): for every
column with a foreign reference, skip entirely on SQLite, otherwise issue the
`ADD CONSTRAINT` statement and discard its result (`let _ = ...`).  Returns
the function result together with the list of issued statements. -/
def assign_foreign_keys (driver : Drivers) (norm : String → String)
    (tn : String) (exec : String → Except SqlxError Unit) :
    List ColumnInfo → Except SqlxError Unit × List String
  | [] => (Except.ok (), [])
  | col :: rest =>
    match col.foreign_table, col.foreign_key with
    | some f_table, some f_key =>
      if driver = Drivers.SQLite then
        assign_foreign_keys driver norm tn exec rest
      else
        let stmt := fkConstraintStmt tn (norm f_table) (norm f_key) (norm col.name)
        let _ := exec stmt
        let r := assign_foreign_keys driver norm tn exec rest
        (r.1, stmt :: r.2)
    | _, _ => assign_foreign_keys driver norm tn exec rest

/-- `Transaction` from `transaction.rs`: the `Arc<Mutex<Option<...>>>` content
is modelled as an `Option Nat` (the inner sqlx transaction handle), plus the
driver. -/
structure Transaction where
  tx : Option Nat
  driver : Drivers
  deriving Repr, DecidableEq

namespace Transaction

/-- `Connection::execute` for `Transaction`: runs against the inner handle
when present, otherwise fails with `WorkerCrashed`. -/
def execute (t : Transaction) (run : Nat → Except SqlxError Nat) :
    Except SqlxError Nat :=
  match t.tx with
  | some h => run h
  | none => Except.error SqlxError.workerCrashed

/-- `Connection::fetch_all` for `Transaction`: same guard as `execute`. -/
def fetch_all (t : Transaction) (run : Nat → Except SqlxError (List Nat)) :
    Except SqlxError (List Nat) :=
  match t.tx with
  | some h => run h
  | none => Except.error SqlxError.workerCrashed

/-- `Connection::fetch_one` for `Transaction`: same guard as `execute`. -/
def fetch_one (t : Transaction) (run : Nat → Except SqlxError Nat) :
    Except SqlxError Nat :=
  match t.tx with
  | some h => run h
  | none => Except.error SqlxError.workerCrashed

/-- `Connection::fetch_optional` for `Transaction`: same guard as `execute`. -/
def fetch_optional (t : Transaction) (run : Nat → Except SqlxError (Option Nat)) :
    Except SqlxError (Option Nat) :=
  match t.tx with
  | some h => run h
  | none => Except.error SqlxError.workerCrashed

/-- `Transaction::commit` (`transaction.rs` lines 117–124): `guard.take()`
removes the handle; with a handle present the inner commit runs, otherwise
the call returns `Ok(())` without touching the backend. -/
def commit (t : Transaction) (commitInner : Nat → Except SqlxError Unit) :
    Except SqlxError Unit × Transaction :=
  match t.tx with
  | some h => (commitInner h, ⟨none, t.driver⟩)
  | none => (Except.ok (), ⟨none, t.driver⟩)

/-- `Transaction::rollback` (`transaction.rs` lines 127–134): same shape as
`commit` with the inner rollback. -/
def rollback (t : Transaction) (rollbackInner : Nat → Except SqlxError Unit) :
    Except SqlxError Unit × Transaction :=
  match t.tx with
  | some h => (rollbackInner h, ⟨none, t.driver⟩)
  | none => (Except.ok (), ⟨none, t.driver⟩)

end Transaction

/-- C7: for every requested page size and configured ceiling, a request above
the ceiling makes both `new_with_limit` and `apply` use the fixed default 10
(not the ceiling) as the effective limit, and a request at or below the
ceiling is used unchanged. -/
theorem pagination_limit_fallback (page limit max_limit : Nat) :
    (limit > max_limit →
      (Pagination.new_with_limit page limit max_limit).limit = 10 ∧
      (Pagination.apply ⟨page, limit, max_limit⟩).limit = 10) ∧
    (limit ≤ max_limit →
      (Pagination.new_with_limit page limit max_limit).limit = limit ∧
      (Pagination.apply ⟨page, limit, max_limit⟩).limit = limit) := by
  constructor
  · intro h
    simp [Pagination.new_with_limit, Pagination.apply, h]
  · intro h
    simp [Pagination.new_with_limit, Pagination.apply, Nat.not_lt.mpr h]

/-- Witness for `pagination_limit_fallback` at requested sizes 200 and 50
against ceiling 100. -/
theorem pagination_limit_fallback_witness :
    (Pagination.new_with_limit 0 200 100).limit = 10 ∧
    (Pagination.new_with_limit 0 50 100).limit = 50 :=
  ⟨((pagination_limit_fallback 0 200 100).1 (by decide)).1,
   ((pagination_limit_fallback 0 50 100).2 (by decide)).1⟩

/-- C10: the value map produced by the generated `to_map` has an entry
exactly for the non-nullable fields (with their serialisation) and for the
`Option`-typed fields holding a value; absent optional fields are omitted
entirely. -/
theorem to_map_entries (fields : List (String × FieldValue)) (n v : String) :
    (n, v) ∈ to_map fields ↔
      ((n, FieldValue.required v) ∈ fields ∨
       (n, FieldValue.optional (some v)) ∈ fields) := by
  induction fields with
  | nil => simp [to_map]
  | cons head rest ih =>
    obtain ⟨hn, hv⟩ := head
    cases hv with
    | required w => simp [to_map, ih, Prod.ext_iff]; tauto
    | optional ow =>
      cases ow with
      | none => simp [to_map, ih, Prod.ext_iff]
      | some w => simp [to_map, ih, Prod.ext_iff]; tauto

/-- C4: `assign_foreign_keys` always returns success — each statement's
result is discarded, so no attachment failure propagates — and on the SQLite
driver it issues no statement at all. -/
theorem assign_foreign_keys_best_effort (driver : Drivers)
    (norm : String → String) (tn : String)
    (exec : String → Except SqlxError Unit) (cols : List ColumnInfo) :
    (assign_foreign_keys driver norm tn exec cols).1 = Except.ok () ∧
    (assign_foreign_keys Drivers.SQLite norm tn exec cols).2 = [] := by
  induction cols with
  | nil => simp [assign_foreign_keys]
  | cons col rest ih =>
    refine ⟨?_, ?_⟩
    · simp only [assign_foreign_keys]
      cases hft : col.foreign_table with
      | none => exact ih.1
      | some ft =>
        cases hfk : col.foreign_key with
        | none => exact ih.1
        | some fk =>
          by_cases hd : driver = Drivers.SQLite
          · subst hd; simp [ih.1]
          · simp [hd, ih.1]
    · simp only [assign_foreign_keys]
      cases hft : col.foreign_table with
      | none => exact ih.2
      | some ft =>
        cases hfk : col.foreign_key with
        | none => exact ih.2
        | some fk => simp [ih.2]

/-- C2 counterexample: after a commit has closed the transaction, a further
`commit` and a further `rollback` both return `Ok(())` — a silent no-op, not
the defined closed-transaction error the claim requires. -/
theorem transaction_closed_counterexample :
    ((Transaction.commit ⟨some 0, Drivers.SQLite⟩ (fun _ => Except.ok ())).2.commit
        (fun _ => Except.ok ())).1 = Except.ok () ∧
    ((Transaction.commit ⟨some 0, Drivers.SQLite⟩ (fun _ => Except.ok ())).2.rollback
        (fun _ => Except.ok ())).1 = Except.ok () ∧
    Except.ok () ≠ (Except.error SqlxError.workerCrashed : Except SqlxError Unit) := by
  refine ⟨rfl, rfl, by intro h; cases h⟩

/-- C2 as amended: after the transaction is closed, `execute`, `fetch_all`,
`fetch_one` and `fetch_optional` are all rejected with the defined error
(`WorkerCrashed`), while a further `commit` or `rollback` returns `Ok(())`
silently and leaves the handle absent; on an open transaction, `commit` and
`rollback` hand the inner handle to the backend exactly once and leave the
handle absent afterwards. -/
theorem transaction_lifecycle (t : Transaction)
    (runE runO : Nat → Except SqlxError Nat)
    (runA : Nat → Except SqlxError (List Nat))
    (runOpt : Nat → Except SqlxError (Option Nat))
    (inner : Nat → Except SqlxError Unit) :
    (t.tx = none →
      t.execute runE = Except.error SqlxError.workerCrashed ∧
      t.fetch_all runA = Except.error SqlxError.workerCrashed ∧
      t.fetch_one runO = Except.error SqlxError.workerCrashed ∧
      t.fetch_optional runOpt = Except.error SqlxError.workerCrashed ∧
      t.commit inner = (Except.ok (), ⟨none, t.driver⟩) ∧
      t.rollback inner = (Except.ok (), ⟨none, t.driver⟩)) ∧
    (∀ h, t.tx = some h →
      t.commit inner = (inner h, ⟨none, t.driver⟩) ∧
      t.rollback inner = (inner h, ⟨none, t.driver⟩)) := by
  constructor
  · intro hnone
    simp [Transaction.execute, Transaction.fetch_all, Transaction.fetch_one,
      Transaction.fetch_optional, Transaction.commit, Transaction.rollback, hnone]
  · intro h hsome
    simp [Transaction.commit, Transaction.rollback, hsome]

/-- Witness for `transaction_lifecycle` on a concrete closed transaction and
a concrete open one. -/
theorem transaction_lifecycle_witness :
    (Transaction.execute ⟨none, Drivers.Postgres⟩ (fun h => Except.ok h) =
      Except.error SqlxError.workerCrashed) ∧
    (Transaction.commit ⟨some 7, Drivers.Postgres⟩ (fun _ => Except.ok ())
      = (Except.ok (), ⟨none, Drivers.Postgres⟩)) :=
  ⟨((transaction_lifecycle ⟨none, Drivers.Postgres⟩ (fun h => Except.ok h)
      (fun h => Except.ok h) (fun _ => Except.ok []) (fun _ => Except.ok none)
      (fun _ => Except.ok ())).1 rfl).1,
   ((transaction_lifecycle ⟨some 7, Drivers.Postgres⟩ (fun h => Except.ok h)
      (fun h => Except.ok h) (fun _ => Except.ok []) (fun _ => Except.ok none)
      (fun _ => Except.ok ())).2 7 rfl).1⟩

/-- `row.try_get::<String, _>(name)` on a by-name lookup, with the row
modelled as an association list of column name to raw string value: a present
column yields its value, an absent one the sqlx column-not-found error. -/
def tryGet (row : List (String × String)) (key : String) :
    Except SqlxError String :=
  match row.lookup key with
  | some v => Except.ok v
  | none => Except.error (SqlxError.columnNotFound key)

/-- The alias-qualified lookup key built by `derive_anyrow.rs` line 57:
`format!("{}__{}", table_name, column_name)`. -/
def aliasName (table column : String) : String := table ++ "__" ++ column

/-- The generated standard field decode (`derive_anyrow.rs` lines 126–131):
`row.try_get(alias_name).or_else(|_| row.try_get(column_name))`. -/
def decodeField (row : List (String × String)) (table column : String) :
    Except SqlxError String :=
  match tryGet row (aliasName table column) with
  | Except.ok v => Except.ok v
  | Except.error _ => tryGet row column

/-- The generated by-name `from_any_row` body over a struct's field list:
each field is decoded by `decodeField` and the first failure aborts the whole
decode (the generated code propagates with the try operator). -/
def fromAnyRowFields (row : List (String × String)) (table : String) :
    List String → Except SqlxError (List String)
  | [] => Except.ok []
  | f :: rest =>
    match decodeField row table f with
    | Except.ok v =>
      match fromAnyRowFields row table rest with
      | Except.ok vs => Except.ok (v :: vs)
      | Except.error e => Except.error e
    | Except.error e => Except.error e

/-- The `FromStr` implementation generated by `derive_enum.rs`: a variant
name parses to itself, any other string fails with
`"Unknown variant: <s>"`. -/
def parseEnum (variants : List String) (s : String) : Except String String :=
  if variants.contains s then Except.ok s
  else Except.error ("Unknown variant: " ++ s)

/-- The generated non-nullable enum field decode (`derive_anyrow.rs` lines
92–100): alias-then-bare lookup, then `s.parse()` with a parse failure mapped
to `sqlx::Error::Decode` carrying `"Failed to parse enum: <parse error>"`;
lookup failures are returned unchanged. -/
def decodeEnumField (row : List (String × String)) (table column : String)
    (variants : List String) : Except SqlxError String :=
  match decodeField row table column with
  | Except.ok s =>
    match parseEnum variants s with
    | Except.ok v => Except.ok v
    | Except.error e => Except.error (SqlxError.decode ("Failed to parse enum: " ++ e))
  | Except.error e => Except.error e

/-- Whether `needle` occurs as a contiguous run inside `hay`. -/
def occursIn (needle : List Char) : List Char → Bool
  | [] => needle.isEmpty
  | c :: rest => needle.isPrefixOf (c :: rest) || occursIn needle rest

/-- Whether an error value is attributed to (names) a given column: the
column-shaped variants name it directly, a bare `Decode` message only if the
column name occurs in the message text. -/
def errorNamesColumn (e : SqlxError) (column : String) : Bool :=
  match e with
  | SqlxError.columnNotFound n => n == column
  | SqlxError.columnDecode i _ => i == column
  | SqlxError.decode m => occursIn column.data m.data
  | _ => false

/-- C9: the generated by-name decode first attempts the alias-qualified
lookup `<table>__<column>` and falls back to the bare column name, for every
field, so one routine decodes both an aliased result set (all columns keyed
`<table>__<column>`) and a bare one (all columns keyed by the plain name). -/
theorem decode_alias_fallback (row : List (String × String)) (table : String)
    (fields : List String) :
    ((∀ f ∈ fields, ∃ v, row.lookup (aliasName table f) = some v) →
      fromAnyRowFields row table fields =
        Except.ok (fields.map fun f => (row.lookup (aliasName table f)).getD "")) ∧
    ((∀ f ∈ fields, row.lookup (aliasName table f) = none) →
      (∀ f ∈ fields, ∃ v, row.lookup f = some v) →
      fromAnyRowFields row table fields =
        Except.ok (fields.map fun f => (row.lookup f).getD "")) := by
  induction fields with
  | nil => simp [fromAnyRowFields]
  | cons f rest ih =>
    constructor
    · intro hall
      obtain ⟨v, hv⟩ := hall f (by simp)
      have hrest := ih.1 (fun g hg => hall g (by simp [hg]))
      simp [fromAnyRowFields, decodeField, tryGet, hv, hrest]
    · intro hnone hbare
      obtain ⟨v, hv⟩ := hbare f (by simp)
      have hf := hnone f (by simp)
      have hrest := (ih.2 (fun g hg => hnone g (by simp [hg])))
        (fun g hg => hbare g (by simp [hg]))
      simp [fromAnyRowFields, decodeField, tryGet, hf, hv, hrest]

/-- Witness for `decode_alias_fallback`: the same one-field DTO decode
succeeds against an aliased row and against a bare row. -/
theorem decode_alias_fallback_witness :
    fromAnyRowFields [("user__username", "ada")] "user" ["username"] =
      Except.ok ["ada"] ∧
    fromAnyRowFields [("username", "ada")] "user" ["username"] =
      Except.ok ["ada"] :=
  ⟨(decode_alias_fallback [("user__username", "ada")] "user" ["username"]).1
      (by intro f hf; simp at hf; subst hf; exact ⟨"ada", rfl⟩),
   (decode_alias_fallback [("username", "ada")] "user" ["username"]).2
      (by intro f hf; simp at hf; subst hf; rfl)
      (by intro f hf; simp at hf; subst hf; exact ⟨"ada", rfl⟩)⟩

/-- C8 counterexample: decoding the enum-typed column `role` holding the
unrecognized string `superadmin` yields a `Decode` error whose message names
the value, not the column — the claim that every such failure names the
offending column is false here. -/
theorem decode_error_column_counterexample :
    decodeEnumField [("role", "superadmin")] "enum_user" "role"
        ["admin", "user", "guest"] =
      Except.error (SqlxError.decode "Failed to parse enum: Unknown variant: superadmin") ∧
    errorNamesColumn
      (SqlxError.decode "Failed to parse enum: Unknown variant: superadmin")
      "role" = false := by
  refine ⟨rfl, by decide⟩

/-- C8 as amended: when the row lookup itself fails (column absent under both
the alias-qualified and the bare name), the decode failure names the
offending column; but when the column is present and holds an unrecognized
string, the failure is a `Decode` error whose message names the unrecognized
value (`"Failed to parse enum: Unknown variant: <s>"`), not the column. -/
theorem enum_decode_error_attribution (row : List (String × String))
    (table column : String) (variants : List String) :
    (row.lookup (aliasName table column) = none → row.lookup column = none →
      decodeEnumField row table column variants =
        Except.error (SqlxError.columnNotFound column) ∧
      errorNamesColumn (SqlxError.columnNotFound column) column = true) ∧
    (∀ s, row.lookup (aliasName table column) = some s ∨
        (row.lookup (aliasName table column) = none ∧ row.lookup column = some s) →
      s ∉ variants →
      decodeEnumField row table column variants =
        Except.error (SqlxError.decode
          ("Failed to parse enum: " ++ ("Unknown variant: " ++ s)))) := by
  constructor
  · intro ha hb
    simp [decodeEnumField, decodeField, tryGet, ha, hb, errorNamesColumn]
  · intro s hs hvar
    rcases hs with h | ⟨ha, hb⟩
    · simp [decodeEnumField, decodeField, tryGet, h, parseEnum, hvar]
    · simp [decodeEnumField, decodeField, tryGet, ha, hb, parseEnum, hvar]

/-- Witness for `enum_decode_error_attribution` on a concrete row. -/
theorem enum_decode_error_attribution_witness :
    (decodeEnumField [] "enum_user" "role" ["admin"] =
      Except.error (SqlxError.columnNotFound "role")) ∧
    (decodeEnumField [("role", "boss")] "enum_user" "role" ["admin"] =
      Except.error (SqlxError.decode "Failed to parse enum: Unknown variant: boss")) :=
  ⟨((enum_decode_error_attribution [] "enum_user" "role" ["admin"]).1
      rfl rfl).1,
   (enum_decode_error_attribution [("role", "boss")] "enum_user" "role"
      ["admin"]).2 "boss" (Or.inr ⟨rfl, rfl⟩) (by decide)⟩

/-- One database-visible event of a migrator run: a table-creation task or a
foreign-key-attachment task for a registered model. -/
inductive MigEvent where
  | createTable (t : String)
  | attachFK (t : String)
  deriving Repr, DecidableEq

/-- The first pass of `Migrator::run` (`migration.rs` lines 66–69): execute
the queued `create_table` tasks in registration order, stopping at the first
failure (the try operator propagates it).  Returns the executed events and
whether every task succeeded. -/
def createPhase (ok : String → Bool) : List String → List MigEvent × Bool
  | [] => ([], true)
  | t :: rest =>
    if ok t then
      let r := createPhase ok rest
      (MigEvent.createTable t :: r.1, r.2)
    else ([MigEvent.createTable t], false)

/-- `Migrator::run` (`migration.rs` lines 66–75): the `create_table` tasks in
registration order, then — only if all of them succeeded — the
`assign_foreign_keys` tasks in registration order (those never fail, per
`assign_foreign_keys_best_effort`). -/
def migratorRun (regs : List String) (ok : String → Bool) : List MigEvent :=
  (createPhase ok regs).1 ++
    (if (createPhase ok regs).2 then regs.map MigEvent.attachFK else [])

/-- Every event executed by the first pass is a table creation. -/
theorem createPhase_fst_create (ok : String → Bool) (regs : List String) :
    ∀ e ∈ (createPhase ok regs).1, ∃ t, e = MigEvent.createTable t := by
  induction regs with
  | nil => simp [createPhase]
  | cons t rest ih =>
    by_cases h : ok t
    · intro e he
      simp only [createPhase, h, if_pos] at he
      rcases List.mem_cons.mp he with rfl | h2
      · exact ⟨t, rfl⟩
      · exact ih e h2
    · intro e he
      simp only [createPhase, h, if_neg] at he
      simp at he
      exact ⟨t, he⟩

/-- When the first pass succeeds it has executed exactly one creation per
registration, in registration order. -/
theorem createPhase_success (ok : String → Bool) (regs : List String) :
    (createPhase ok regs).2 = true →
    (createPhase ok regs).1 = regs.map MigEvent.createTable := by
  induction regs with
  | nil => simp [createPhase]
  | cons t rest ih =>
    by_cases h : ok t
    · intro hs
      simp only [createPhase, h, if_pos] at hs ⊢
      simp [ih hs]
    · intro hs
      simp [createPhase, h] at hs

/-- C3: in every `Migrator::run` trace, any foreign-key attachment comes
strictly after every table creation; when an attachment runs at all, every
registered table's creation ran before it; and on full success the trace is
exactly the creations in registration order followed by the attachments in
registration order. -/
theorem migrator_creates_before_fks (regs : List String) (ok : String → Bool) :
    (∀ i j (hi : i < (migratorRun regs ok).length)
        (hj : j < (migratorRun regs ok).length) (ti tj : String),
      (migratorRun regs ok).get ⟨i, hi⟩ = MigEvent.attachFK ti →
      (migratorRun regs ok).get ⟨j, hj⟩ = MigEvent.createTable tj → j < i) ∧
    (∀ t, MigEvent.attachFK t ∈ migratorRun regs ok →
      ∀ r ∈ regs, MigEvent.createTable r ∈ migratorRun regs ok) ∧
    ((createPhase ok regs).2 = true →
      migratorRun regs ok = regs.map MigEvent.createTable ++ regs.map MigEvent.attachFK) := by
  refine ⟨?_, ?_, ?_⟩
  · intro i j hi hj ti tj hti htj
    rw [List.get_eq_getElem] at hti htj
    simp only [migratorRun] at hti htj
    have hjlt : j < (createPhase ok regs).1.length := by
      by_contra hge
      have hge2 : (createPhase ok regs).1.length ≤ j := Nat.le_of_not_lt hge
      rw [List.getElem_append_right hge2] at htj
      by_cases hs : (createPhase ok regs).2
      · simp only [hs, if_pos] at htj
        rw [List.getElem_map] at htj
        exact MigEvent.noConfusion htj
      · have hj2 := hj
        simp only [migratorRun, hs, Bool.false_eq_true, if_false,
          List.append_nil] at hj2
        omega
    have hige : (createPhase ok regs).1.length ≤ i := by
      by_contra hlt
      have hlt2 : i < (createPhase ok regs).1.length := Nat.lt_of_not_le hlt
      rw [List.getElem_append_left hlt2] at hti
      have hmem := List.getElem_mem hlt2
      rw [hti] at hmem
      obtain ⟨r, hr⟩ := createPhase_fst_create ok regs _ hmem
      exact MigEvent.noConfusion hr
    omega
  · intro t ht r hr
    have hs : (createPhase ok regs).2 = true := by
      by_contra hns
      simp only [migratorRun, Bool.not_eq_true] at ht hns
      rw [hns] at ht
      simp only [Bool.false_eq_true, if_false, List.append_nil] at ht
      obtain ⟨w, hw⟩ := createPhase_fst_create ok regs _ ht
      exact MigEvent.noConfusion hw
    simp only [migratorRun, hs, if_pos]
    exact List.mem_append_left _
      (by rw [createPhase_success ok regs hs]; exact List.mem_map_of_mem _ hr)
  · intro hs
    simp only [migratorRun, hs, if_pos, createPhase_success ok regs hs]

/-- Witness for `migrator_creates_before_fks`: with two registered models and
all creations succeeding, the attachment of the first model's foreign keys is
in the trace, hence so is the creation of the second model's table. -/
theorem migrator_creates_before_fks_witness :
    MigEvent.createTable "post" ∈ migratorRun ["user", "post"] (fun _ => true) :=
  (migrator_creates_before_fks ["user", "post"] (fun _ => true)).2.1 "user"
    (by decide) "post" (by decide)

/-- Modelled from the spec: `query_builder.rs` is not in the source tree.
The filter-tree operators of §3 (`FilterNode` leaf predicates). -/
inductive FilterOp where
  | eq
  | neq
  | gt
  | gte
  | lt
  | lte
  | like
  | inList
  | between
  | isNull
  deriving Repr, DecidableEq

/-- Modelled from the spec: the `FilterNode` tree of §3 — leaf predicates
with bound values, raw-text predicates with positional bind values, and the
AND-join / OR-join / NOT combinators the builder accumulates (`filter`,
`or_filter`, `where_raw`, `or_group`, `not_filter`).  The builder joins each
appended predicate onto the accumulated tree, hence binary joins. -/
inductive FilterNode where
  | leaf (column : String) (op : FilterOp) (binds : List String)
  | raw (sqlText : String) (binds : List String)
  | andJoin (l r : FilterNode)
  | orJoin (l r : FilterNode)
  | notWrap (u : FilterNode)
  deriving Repr, DecidableEq

/-- The rendered operator text of a leaf predicate. -/
def opText : FilterOp → String
  | FilterOp.eq => " = "
  | FilterOp.neq => " <> "
  | FilterOp.gt => " > "
  | FilterOp.gte => " >= "
  | FilterOp.lt => " < "
  | FilterOp.lte => " <= "
  | FilterOp.like => " LIKE "
  | FilterOp.inList => " IN "
  | FilterOp.between => " BETWEEN "
  | FilterOp.isNull => " IS NULL"

/-- The values a leaf actually binds: an `IS NULL` leaf binds nothing, every
other leaf binds its value list (one positional argument per value). -/
def leafBinds (op : FilterOp) (binds : List String) : List String :=
  if op = FilterOp.isNull then [] else binds

/-- One token of rendered SQL: literal text, or the placeholder for the
argument with the given 1-based position (`$n` on Postgres; on MySQL/SQLite
the placeholder prints as `?` but still refers to this position). -/
inductive SqlTok where
  | text (s : String)
  | ph (n : Nat)
  deriving Repr, DecidableEq

/-- The run of placeholders for `k` consecutive argument positions starting
at `c`. -/
def phTokens (c k : Nat) : List SqlTok :=
  (List.range' c k).map SqlTok.ph

/-- Modelled from the spec: rendering one `FilterNode` to SQL tokens with the
running argument counter (§4.3: OR-branches and NOT-wrappers parenthesized;
the literal text around the placeholders is schematic, the placeholder
sequence is exact).  Returns the tokens and the advanced counter, mirroring
the `arg_counter` threading visible in `pagination.rs` lines 163–180. -/
def renderNode : FilterNode → Nat → List SqlTok × Nat
  | FilterNode.leaf col op binds, c =>
    (SqlTok.text (col ++ opText op) :: phTokens c (leafBinds op binds).length,
     c + (leafBinds op binds).length)
  | FilterNode.raw sql binds, c =>
    (SqlTok.text sql :: phTokens c binds.length, c + binds.length)
  | FilterNode.andJoin l r, c =>
    ((renderNode l c).1 ++ (SqlTok.text " AND " :: (renderNode r (renderNode l c).2).1),
     (renderNode r (renderNode l c).2).2)
  | FilterNode.orJoin l r, c =>
    (SqlTok.text "(" ::
        ((renderNode l c).1 ++
          (SqlTok.text " OR " :: (renderNode r (renderNode l c).2).1) ++
          [SqlTok.text ")"]),
     (renderNode r (renderNode l c).2).2)
  | FilterNode.notWrap u, c =>
    (SqlTok.text "NOT (" :: (renderNode u c).1 ++ [SqlTok.text ")"],
     (renderNode u c).2)

/-- Modelled from the spec: the bind-argument walk over the same tree, in the
same left-to-right order the renderer uses. -/
def bindValues : FilterNode → List String
  | FilterNode.leaf _ op binds => leafBinds op binds
  | FilterNode.raw _ binds => binds
  | FilterNode.andJoin l r => bindValues l ++ bindValues r
  | FilterNode.orJoin l r => bindValues l ++ bindValues r
  | FilterNode.notWrap u => bindValues u

/-- The 1-based argument positions of the placeholders in a token list, in
rendering order. -/
def phIndices (toks : List SqlTok) : List Nat :=
  toks.filterMap fun t =>
    match t with
    | SqlTok.ph n => some n
    | SqlTok.text _ => none

/-- Rendering the accumulated clause list (WHERE clauses then HAVING clauses)
with one shared argument counter, as `pagination.rs` lines 163–180 replays
them. -/
def renderClauses : List FilterNode → Nat → List SqlTok × Nat
  | [], c => ([], c)
  | t :: ts, c =>
    ((renderNode t c).1 ++ (renderClauses ts (renderNode t c).2).1,
     (renderClauses ts (renderNode t c).2).2)

/-- The bind values of the accumulated clause list, in walk order. -/
def bindClauses : List FilterNode → List String
  | [] => []
  | t :: ts => bindValues t ++ bindClauses ts

theorem phIndices_cons_text (s : String) (xs : List SqlTok) :
    phIndices (SqlTok.text s :: xs) = phIndices xs := by
  simp [phIndices]

theorem phIndices_append (xs ys : List SqlTok) :
    phIndices (xs ++ ys) = phIndices xs ++ phIndices ys := by
  simp [phIndices]

theorem phIndices_phTokens (c k : Nat) :
    phIndices (phTokens c k) = List.range' c k := by
  simp [phIndices, phTokens, List.filterMap_map]
  exact List.filterMap_some _

theorem range_one_append (c a b : Nat) :
    List.range' c a ++ List.range' (c + a) b = List.range' c (a + b) := by
  induction a generalizing c with
  | zero => simp
  | succ a ih =>
    rw [List.range'_succ, List.cons_append, show c + (a + 1) = (c + 1) + a by omega, ih]
    rw [show a + 1 + b = (a + b) + 1 by omega, List.range'_succ]

/-- The render of one node emits exactly the placeholder positions
`c, c+1, ...` for its bind values and advances the counter by their count. -/
theorem renderNode_spec (t : FilterNode) : ∀ c : Nat,
    phIndices (renderNode t c).1 = List.range' c (bindValues t).length ∧
    (renderNode t c).2 = c + (bindValues t).length := by
  induction t with
  | leaf col op binds =>
    intro c
    simp [renderNode, bindValues, phIndices_cons_text, phIndices_phTokens]
  | raw sql binds =>
    intro c
    simp [renderNode, bindValues, phIndices_cons_text, phIndices_phTokens]
  | andJoin l r ihl ihr =>
    intro c
    obtain ⟨hl1, hl2⟩ := ihl c
    obtain ⟨hr1, hr2⟩ := ihr (renderNode l c).2
    simp only [renderNode, bindValues, List.length_append]
    constructor
    · rw [phIndices_append, phIndices_cons_text, hl1, hr1, hl2, range_one_append]
    · omega
  | orJoin l r ihl ihr =>
    intro c
    obtain ⟨hl1, hl2⟩ := ihl c
    obtain ⟨hr1, hr2⟩ := ihr (renderNode l c).2
    simp only [renderNode, bindValues, List.length_append]
    constructor
    · rw [phIndices_cons_text, phIndices_append, phIndices_append,
        phIndices_cons_text, hl1, hr1, hl2]
      simp [phIndices, range_one_append]
      omega
    · omega
  | notWrap u ih =>
    intro c
    obtain ⟨h1, h2⟩ := ih c
    simp only [renderNode, bindValues]
    constructor
    · rw [phIndices_append, phIndices_cons_text, h1]
      simp [phIndices]
    · omega

/-- The clause-list render and walk agree the same way, with the counter
threaded across clause boundaries. -/
theorem renderClauses_spec (ts : List FilterNode) : ∀ c : Nat,
    phIndices (renderClauses ts c).1 = List.range' c (bindClauses ts).length ∧
    (renderClauses ts c).2 = c + (bindClauses ts).length := by
  induction ts with
  | nil => intro c; simp [renderClauses, bindClauses, phIndices]
  | cons t ts ih =>
    intro c
    obtain ⟨h1, h2⟩ := renderNode_spec t c
    obtain ⟨h3, h4⟩ := ih (renderNode t c).2
    simp only [renderClauses, bindClauses, List.length_append]
    constructor
    · rw [phIndices_append, h1, h3, h2, range_one_append]
    · omega

/-- C1: for every accumulated WHERE/HAVING filter-tree state, the rendered
SQL contains exactly as many placeholders as the bind walk produces values,
and the k-th placeholder (left to right) carries argument position k — i.e.
it refers to the k-th bound value: render order and bind order match
exactly. -/
theorem filter_tree_placeholder_bind_alignment
    (whereClauses havingClauses : List FilterNode) :
    (phIndices (renderClauses (whereClauses ++ havingClauses) 1).1).length =
      (bindClauses (whereClauses ++ havingClauses)).length ∧
    phIndices (renderClauses (whereClauses ++ havingClauses) 1).1 =
      List.range' 1 (bindClauses (whereClauses ++ havingClauses)).length := by
  have h := renderClauses_spec (whereClauses ++ havingClauses) 1
  exact ⟨by rw [h.1, List.length_range'], h.1⟩

/-- The catalog state of one table as the synchroniser sees it through the
dialect's introspection queries (`table_exists`, `get_table_columns`,
`get_table_indexes`). -/
structure Catalog where
  tableExists : Bool
  columns : List String
  indexes : List String
  deriving Repr, DecidableEq

/-- The default literal `sync_table` appends for a missing non-nullable
column (`database.rs` lines 190–197): `0` for the exact type strings
INTEGER/INT/BIGINT, `FALSE` for BOOLEAN/BOOL, and the SQL empty-string
literal (two single-quote characters) for every other type string. -/
def defaultLiteral (ty : String) : String :=
  if ty = "INTEGER" ∨ ty = "INT" ∨ ty = "BIGINT" then "0"
  else if ty = "BOOLEAN" ∨ ty = "BOOL" then "FALSE"
  else "\x27\x27"

/-- The `ALTER TABLE ADD COLUMN` statement `sync_table` issues for a missing
column (`database.rs` lines 189–197). -/
def alterStatement (tn cn ty : String) (nullable : Bool) : String :=
  let base := "ALTER TABLE \"" ++ tn ++ "\" ADD COLUMN \"" ++ cn ++ "\" " ++ ty
  if nullable then base else base ++ " DEFAULT " ++ defaultLiteral ty

/-- The `CREATE UNIQUE INDEX` statement of `sync_table` (`database.rs` lines
207–210): plain on Postgres/MySQL, `IF NOT EXISTS` on SQLite. -/
def uniqueIndexStmt (driver : Drivers) (uniqName tn cn : String) : String :=
  if driver = Drivers.SQLite then
    "CREATE UNIQUE INDEX IF NOT EXISTS \"" ++ uniqName ++ "\" ON \"" ++ tn ++
      "\" (\"" ++ cn ++ "\")"
  else
    "CREATE UNIQUE INDEX \"" ++ uniqName ++ "\" ON \"" ++ tn ++ "\" (\"" ++
      cn ++ "\")"

/-- The plain `CREATE INDEX` statement of `sync_table` (`database.rs` lines
213–216): plain on Postgres/MySQL, `IF NOT EXISTS` on SQLite. -/
def plainIndexStmt (driver : Drivers) (idxName tn cn : String) : String :=
  if driver = Drivers.SQLite then
    "CREATE INDEX IF NOT EXISTS \"" ++ idxName ++ "\" ON \"" ++ tn ++
      "\" (\"" ++ cn ++ "\")"
  else
    "CREATE INDEX \"" ++ idxName ++ "\" ON \"" ++ tn ++ "\" (\"" ++ cn ++ "\")"

/-- The column-addition half of one `sync_table` loop iteration
(`database.rs` lines 186–199): the declared column is checked against the
column snapshot fetched once before the loop; a missing column gets one
`ALTER TABLE ADD COLUMN` whose execution adds it to the live catalog. -/
def alterPart (norm : String → String) (tn : String) (existing : List String)
    (col : ColumnInfo) (cat : Catalog) : List String × Catalog :=
  let cn := norm col.name
  if existing.contains cn then ([], cat)
  else ([alterStatement tn cn col.sql_type col.is_nullable],
        { cat with columns := cn :: cat.columns })

/-- The index half of one `sync_table` loop iteration (`database.rs` lines
201–219): the index list is re-fetched from the live catalog on every
iteration; a unique column missing `unique_<table>_<column>` gets a unique
index, otherwise an indexed non-unique column missing `idx_<table>_<column>`
gets a plain index. -/
def indexPart (driver : Drivers) (norm : String → String) (tn : String)
    (col : ColumnInfo) (cat : Catalog) : List String × Catalog :=
  let cn := norm col.name
  if col.index || col.unique then
    let idx_name := "idx_" ++ tn ++ "_" ++ cn
    let uniq_name := "unique_" ++ tn ++ "_" ++ cn
    if col.unique && !(cat.indexes.contains uniq_name) then
      ([uniqueIndexStmt driver uniq_name tn cn],
       { cat with indexes := uniq_name :: cat.indexes })
    else if col.index && !(cat.indexes.contains idx_name) && !col.unique then
      ([plainIndexStmt driver idx_name tn cn],
       { cat with indexes := idx_name :: cat.indexes })
    else ([], cat)
  else ([], cat)

/-- One full `sync_table` loop iteration over one declared column. -/
def syncColumnStep (driver : Drivers) (norm : String → String) (tn : String)
    (existing : List String) (col : ColumnInfo) (cat : Catalog) :
    List String × Catalog :=
  let a := alterPart norm tn existing col cat
  let b := indexPart driver norm tn col a.2
  (a.1 ++ b.1, b.2)

/-- The `sync_table` diff loop over the declared column list, threading the
live catalog while checking columns against the pre-loop snapshot. -/
def syncDiff (driver : Drivers) (norm : String → String) (tn : String)
    (existing : List String) : List ColumnInfo → Catalog → List String × Catalog
  | [], cat => ([], cat)
  | col :: rest, cat =>
    let st := syncColumnStep driver norm tn existing col cat
    let rst := syncDiff driver norm tn existing rest st.2
    (st.1 ++ rst.1, rst.2)

/-- One column definition inside `create_table`'s `CREATE TABLE` statement
(`database.rs` lines 140–162). -/
def columnDef (norm : String → String) (col : ColumnInfo) : String :=
  let base := "\"" ++ norm col.name ++ "\" " ++ col.sql_type
  let base2 := if col.is_primary_key then base ++ " PRIMARY KEY"
    else if !col.is_nullable then base ++ " NOT NULL" else base
  if col.unique && !col.is_primary_key then base2 ++ " UNIQUE" else base2

/-- `create_table`'s `CREATE TABLE IF NOT EXISTS` statement. -/
def createTableStmt (norm : String → String) (tn : String)
    (cols : List ColumnInfo) : String :=
  "CREATE TABLE IF NOT EXISTS \"" ++ tn ++ "\" (" ++
    String.intercalate ", " (cols.map (columnDef norm)) ++ ")"

/-- The `CREATE INDEX IF NOT EXISTS` statement `create_table` issues for an
indexed non-primary-key non-unique column (`database.rs` lines 154–159). -/
def createIndexStmtCT (tn cn : String) : String :=
  "CREATE INDEX IF NOT EXISTS \"idx_" ++ tn ++ "_" ++ cn ++ "\" ON \"" ++
    tn ++ "\" (\"" ++ cn ++ "\")"

/-- All statements `Database::create_table` issues, in order. -/
def createTableStmts (norm : String → String) (tn : String)
    (cols : List ColumnInfo) : List String :=
  createTableStmt norm tn cols ::
    cols.filterMap fun col =>
      if col.index && !col.is_primary_key && !col.unique then
        some (createIndexStmtCT tn (norm col.name))
      else none

/-- Modelled from the spec: the catalog state after `create_table`.  The
explicit `CREATE INDEX` statements register their `idx_<table>_<column>`
names; an inline `UNIQUE` constraint makes the backend create an implicit
index whose catalog name is backend-chosen (the spec's §6 catalog contract
surfaces it through the dialect's index-list query — SQLite, for instance,
reports `sqlite_autoindex_<table>_<N>`), supplied here by `uniqNamer`. -/
def createTableCatalog (norm : String → String)
    (uniqNamer : String → String → String) (tn : String)
    (cols : List ColumnInfo) : Catalog :=
  { tableExists := true
    columns := cols.map fun col => norm col.name
    indexes :=
      (cols.filterMap fun col =>
        if col.index && !col.is_primary_key && !col.unique then
          some ("idx_" ++ tn ++ "_" ++ norm col.name)
        else none) ++
      (cols.filterMap fun col =>
        if col.unique && !col.is_primary_key then
          some (uniqNamer tn (norm col.name))
        else none) }

/-- `Database::sync_table` (`database.rs` lines 177–223): a missing table
defers to full creation, an existing one is diffed column by column.
Returns the issued statements and the resulting catalog state. -/
def sync_table (driver : Drivers) (norm : String → String)
    (uniqNamer : String → String → String) (tn : String)
    (cols : List ColumnInfo) (cat : Catalog) : List String × Catalog :=
  if cat.tableExists = false then
    (createTableStmts norm tn cols, createTableCatalog norm uniqNamer tn cols)
  else
    syncDiff driver norm tn cat.columns cols cat

theorem alterPart_indexes (norm : String → String) (tn : String)
    (existing : List String) (col : ColumnInfo) (cat : Catalog) :
    ((alterPart norm tn existing col cat).2).indexes = cat.indexes := by
  by_cases h : norm col.name ∈ existing <;> simp [alterPart, h]

theorem alterPart_tableExists (norm : String → String) (tn : String)
    (existing : List String) (col : ColumnInfo) (cat : Catalog) :
    ((alterPart norm tn existing col cat).2).tableExists = cat.tableExists := by
  by_cases h : norm col.name ∈ existing <;> simp [alterPart, h]

theorem alterPart_columns_mono (norm : String → String) (tn : String)
    (existing : List String) (col : ColumnInfo) (cat : Catalog) (s : String)
    (h : s ∈ cat.columns) :
    s ∈ ((alterPart norm tn existing col cat).2).columns := by
  by_cases hc : norm col.name ∈ existing <;> simp [alterPart, hc, h]

theorem alterPart_establishes (norm : String → String) (tn : String)
    (existing : List String) (col : ColumnInfo) (cat : Catalog)
    (hlink : norm col.name ∈ existing → norm col.name ∈ cat.columns) :
    norm col.name ∈ ((alterPart norm tn existing col cat).2).columns := by
  by_cases hc : norm col.name ∈ existing
  · simp [alterPart, hc]
    exact hlink hc
  · simp [alterPart, hc]

theorem indexPart_columns (driver : Drivers) (norm : String → String)
    (tn : String) (col : ColumnInfo) (cat : Catalog) :
    ((indexPart driver norm tn col cat).2).columns = cat.columns := by
  simp only [indexPart]
  split_ifs <;> rfl

theorem indexPart_tableExists (driver : Drivers) (norm : String → String)
    (tn : String) (col : ColumnInfo) (cat : Catalog) :
    ((indexPart driver norm tn col cat).2).tableExists = cat.tableExists := by
  simp only [indexPart]
  split_ifs <;> rfl

theorem indexPart_indexes_mono (driver : Drivers) (norm : String → String)
    (tn : String) (col : ColumnInfo) (cat : Catalog) (s : String)
    (h : s ∈ cat.indexes) :
    s ∈ ((indexPart driver norm tn col cat).2).indexes := by
  simp only [indexPart]
  split_ifs <;> simp [h]

theorem indexPart_establishes (driver : Drivers) (norm : String → String)
    (tn : String) (col : ColumnInfo) (cat : Catalog) :
    (col.unique = true →
      ("unique_" ++ tn ++ "_" ++ norm col.name) ∈
        ((indexPart driver norm tn col cat).2).indexes) ∧
    (col.index = true → col.unique = false →
      ("idx_" ++ tn ++ "_" ++ norm col.name) ∈
        ((indexPart driver norm tn col cat).2).indexes) := by
  cases hu : col.unique with
  | true =>
    refine ⟨fun _ => ?_, fun _ h2 => by simp [hu] at h2⟩
    by_cases hcu : ("unique_" ++ tn ++ "_" ++ norm col.name) ∈ cat.indexes <;>
      simp [indexPart, hu, hcu]
  | false =>
    refine ⟨fun h1 => by simp [hu] at h1, fun hi _ => ?_⟩
    by_cases hci : ("idx_" ++ tn ++ "_" ++ norm col.name) ∈ cat.indexes <;>
      simp [indexPart, hu, hi, hci]

/-- The per-column satisfaction invariant: the live catalog already records
the column and whatever index its flags demand, so the `sync_table` loop
iteration for it has nothing to issue. -/
def colSatisfied (cat : Catalog) (norm : String → String) (tn : String)
    (col : ColumnInfo) : Prop :=
  norm col.name ∈ cat.columns ∧
  (col.unique = true →
    ("unique_" ++ tn ++ "_" ++ norm col.name) ∈ cat.indexes) ∧
  (col.index = true → col.unique = false →
    ("idx_" ++ tn ++ "_" ++ norm col.name) ∈ cat.indexes)

theorem syncColumnStep_mono (driver : Drivers) (norm : String → String)
    (tn : String) (existing : List String) (col : ColumnInfo) (cat : Catalog) :
    (∀ s, s ∈ cat.columns →
      s ∈ ((syncColumnStep driver norm tn existing col cat).2).columns) ∧
    (∀ s, s ∈ cat.indexes →
      s ∈ ((syncColumnStep driver norm tn existing col cat).2).indexes) ∧
    ((syncColumnStep driver norm tn existing col cat).2).tableExists = cat.tableExists := by
  refine ⟨fun s h => ?_, fun s h => ?_, ?_⟩
  · simp only [syncColumnStep, indexPart_columns]
    exact alterPart_columns_mono norm tn existing col cat s h
  · simp only [syncColumnStep]
    exact indexPart_indexes_mono driver norm tn col _ s
      (by rw [alterPart_indexes]; exact h)
  · simp only [syncColumnStep, indexPart_tableExists, alterPart_tableExists]

theorem syncColumnStep_establishes (driver : Drivers) (norm : String → String)
    (tn : String) (existing : List String) (col : ColumnInfo) (cat : Catalog)
    (hlink : norm col.name ∈ existing → norm col.name ∈ cat.columns) :
    colSatisfied ((syncColumnStep driver norm tn existing col cat).2) norm tn col := by
  refine ⟨?_, ?_, ?_⟩
  · simp only [syncColumnStep, indexPart_columns]
    exact alterPart_establishes norm tn existing col cat hlink
  · simp only [syncColumnStep]
    exact (indexPart_establishes driver norm tn col _).1
  · simp only [syncColumnStep]
    exact (indexPart_establishes driver norm tn col _).2

theorem syncColumnStep_quiescent (driver : Drivers) (norm : String → String)
    (tn : String) (col : ColumnInfo) (cat : Catalog)
    (hsat : colSatisfied cat norm tn col) :
    syncColumnStep driver norm tn cat.columns col cat = ([], cat) := by
  obtain ⟨h1, h2, h3⟩ := hsat
  have ha : alterPart norm tn cat.columns col cat = ([], cat) := by
    simp [alterPart, h1]
  have hb : indexPart driver norm tn col cat = ([], cat) := by
    cases hu : col.unique with
    | true => simp [indexPart, hu, h2 hu]
    | false =>
      cases hi : col.index with
      | true => simp [indexPart, hu, hi, h3 hi hu]
      | false => simp [indexPart, hu, hi]
  simp [syncColumnStep, ha, hb]

theorem syncDiff_mono (driver : Drivers) (norm : String → String)
    (tn : String) (existing : List String) (cols : List ColumnInfo) :
    ∀ cat : Catalog,
    (∀ s, s ∈ cat.columns →
      s ∈ ((syncDiff driver norm tn existing cols cat).2).columns) ∧
    (∀ s, s ∈ cat.indexes →
      s ∈ ((syncDiff driver norm tn existing cols cat).2).indexes) ∧
    ((syncDiff driver norm tn existing cols cat).2).tableExists = cat.tableExists := by
  induction cols with
  | nil => intro cat; simp [syncDiff]
  | cons col rest ih =>
    intro cat
    obtain ⟨m1, m2, m3⟩ := syncColumnStep_mono driver norm tn existing col cat
    obtain ⟨r1, r2, r3⟩ := ih (syncColumnStep driver norm tn existing col cat).2
    refine ⟨fun s h => ?_, fun s h => ?_, ?_⟩
    · simp only [syncDiff]
      exact r1 s (m1 s h)
    · simp only [syncDiff]
      exact r2 s (m2 s h)
    · simp only [syncDiff]
      rw [r3, m3]

theorem syncDiff_establishes (driver : Drivers) (norm : String → String)
    (tn : String) (existing : List String) (cols : List ColumnInfo) :
    ∀ cat : Catalog,
    (∀ cn, cn ∈ existing → cn ∈ cat.columns) →
    ∀ col ∈ cols,
      colSatisfied ((syncDiff driver norm tn existing cols cat).2) norm tn col := by
  induction cols with
  | nil => intro cat _ col hcol; cases hcol
  | cons c rest ih =>
    intro cat hlink col hcol
    obtain ⟨m1, m2, _⟩ := syncDiff_mono driver norm tn existing rest
      (syncColumnStep driver norm tn existing c cat).2
    rcases List.mem_cons.mp hcol with rfl | hmem
    · obtain ⟨e1, e2, e3⟩ := syncColumnStep_establishes driver norm tn existing col cat
        (hlink (norm col.name))
      refine ⟨?_, ?_, ?_⟩
      · simp only [syncDiff]
        exact m1 _ e1
      · intro hu
        simp only [syncDiff]
        exact m2 _ (e2 hu)
      · intro hi hu
        simp only [syncDiff]
        exact m2 _ (e3 hi hu)
    · have hlink2 : ∀ cn, cn ∈ existing →
          cn ∈ ((syncColumnStep driver norm tn existing c cat).2).columns := by
        intro cn hcn
        exact (syncColumnStep_mono driver norm tn existing c cat).1 cn (hlink cn hcn)
      have := ih (syncColumnStep driver norm tn existing c cat).2 hlink2 col hmem
      simpa [syncDiff] using this

theorem syncDiff_quiescent (driver : Drivers) (norm : String → String)
    (tn : String) (cols : List ColumnInfo) :
    ∀ cat : Catalog,
    (∀ col ∈ cols, colSatisfied cat norm tn col) →
    syncDiff driver norm tn cat.columns cols cat = ([], cat) := by
  induction cols with
  | nil => intro cat _; simp [syncDiff]
  | cons c rest ih =>
    intro cat hsat
    have hstep := syncColumnStep_quiescent driver norm tn c cat (hsat c (by simp))
    have hrest := ih cat fun col hc => hsat col (by simp [hc])
    simp [syncDiff, hstep, hrest]

/-- The claim's "numeric" SQL-type category, over the SQL type strings this
repository's own type mapper emits (`types.rs` maps i32/i64/f64 to INTEGER,
BIGINT, DOUBLE PRECISION) plus the INT spelling `database.rs` accepts. -/
def numericSqlType (ty : String) : Bool :=
  ty = "INTEGER" || ty = "INT" || ty = "BIGINT" || ty = "DOUBLE PRECISION"

/-- C5 counterexample: `DOUBLE PRECISION` is a numeric type (the mapper
emits it for `f64`), yet the ALTER statement issued for a missing
non-nullable `DOUBLE PRECISION` column carries the empty-string default, not
`0` — the `_` arm of the match catches every type string outside the five
integer/boolean spellings. -/
theorem sync_missing_column_default_counterexample :
    numericSqlType "DOUBLE PRECISION" = true ∧
    (syncColumnStep Drivers.SQLite (fun s => s) "measures" []
        ⟨"price", "DOUBLE PRECISION", false, false, false, false, false, false, none, none⟩
        ⟨true, ["id"], []⟩).1 =
      ["ALTER TABLE \"measures\" ADD COLUMN \"price\" DOUBLE PRECISION DEFAULT \x27\x27"] ∧
    ("ALTER TABLE \"measures\" ADD COLUMN \"price\" DOUBLE PRECISION DEFAULT \x27\x27" ≠
      "ALTER TABLE \"measures\" ADD COLUMN \"price\" DOUBLE PRECISION DEFAULT 0") := by
  refine ⟨rfl, rfl, by decide⟩

/-- C5 as amended: for a declared non-nullable column missing from the
catalog snapshot, the issued `ALTER TABLE ADD COLUMN` carries a default
literal chosen by exact type-string match — `0` for the integer spellings
INTEGER/INT/BIGINT, `FALSE` for BOOLEAN/BOOL, and the empty-string literal
for every other type (including the floating-point numeric
DOUBLE PRECISION). -/
theorem sync_missing_column_default (driver : Drivers)
    (norm : String → String) (tn : String) (existing : List String)
    (col : ColumnInfo) (cat : Catalog)
    (hmiss : norm col.name ∉ existing) (hnn : col.is_nullable = false) :
    (syncColumnStep driver norm tn existing col cat).1.head? =
      some ("ALTER TABLE \"" ++ tn ++ "\" ADD COLUMN \"" ++ norm col.name ++
        "\" " ++ col.sql_type ++ " DEFAULT " ++ defaultLiteral col.sql_type) ∧
    (defaultLiteral "INTEGER" = "0" ∧ defaultLiteral "INT" = "0" ∧
      defaultLiteral "BIGINT" = "0" ∧ defaultLiteral "BOOLEAN" = "FALSE" ∧
      defaultLiteral "BOOL" = "FALSE") ∧
    (col.sql_type ≠ "INTEGER" → col.sql_type ≠ "INT" → col.sql_type ≠ "BIGINT" →
      col.sql_type ≠ "BOOLEAN" → col.sql_type ≠ "BOOL" →
      defaultLiteral col.sql_type = "\x27\x27") := by
  refine ⟨?_, ⟨by decide, by decide, by decide, by decide, by decide⟩, ?_⟩
  · simp [syncColumnStep, alterPart, hmiss, alterStatement, hnn]
  · intro h1 h2 h3 h4 h5
    simp [defaultLiteral, h1, h2, h3, h4, h5]

/-- Witness for `sync_missing_column_default` on a concrete missing
non-nullable INTEGER column. -/
theorem sync_missing_column_default_witness :
    (syncColumnStep Drivers.Postgres (fun s => s) "users" ["id"]
        ⟨"age", "INTEGER", false, false, false, false, false, false, none, none⟩
        ⟨true, ["id"], []⟩).1.head? =
      some "ALTER TABLE \"users\" ADD COLUMN \"age\" INTEGER DEFAULT 0" :=
  (sync_missing_column_default Drivers.Postgres (fun s => s) "users" ["id"]
    ⟨"age", "INTEGER", false, false, false, false, false, false, none, none⟩
    ⟨true, ["id"], []⟩ (by decide) rfl).1

/-- C6 counterexample: with the table absent, the first `sync_table` call
takes the creation path, where the unique column's inline `UNIQUE` leaves a
backend-named implicit index (SQLite reports `sqlite_autoindex_<table>_<N>`)
rather than `unique_<table>_<column>`; the second call therefore issues one
`CREATE UNIQUE INDEX` — not zero statements. -/
theorem sync_table_idempotent_counterexample :
    (sync_table Drivers.SQLite (fun s => s)
        (fun t _ => "sqlite_autoindex_" ++ t ++ "_1") "users"
        [⟨"id", "INTEGER", true, false, false, false, false, false, none, none⟩,
         ⟨"email", "TEXT", false, false, false, false, true, false, none, none⟩]
        (sync_table Drivers.SQLite (fun s => s)
          (fun t _ => "sqlite_autoindex_" ++ t ++ "_1") "users"
          [⟨"id", "INTEGER", true, false, false, false, false, false, none, none⟩,
           ⟨"email", "TEXT", false, false, false, false, true, false, none, none⟩]
          ⟨false, [], []⟩).2).1 =
      ["CREATE UNIQUE INDEX IF NOT EXISTS \"unique_users_email\" ON \"users\" (\"email\")"] ∧
    (["CREATE UNIQUE INDEX IF NOT EXISTS \"unique_users_email\" ON \"users\" (\"email\")"] ≠
      ([] : List String)) := by
  refine ⟨rfl, by decide⟩

/-- C6 as amended: `sync_table` is idempotent whenever the first call takes
the diff path (the table already exists in the catalog): the second call in
succession, against the catalog state the first call produced, issues zero
ALTER TABLE and zero CREATE INDEX statements. -/
theorem sync_table_idempotent_diff_path (driver : Drivers)
    (norm : String → String) (uniqNamer : String → String → String)
    (tn : String) (cols : List ColumnInfo) (cat : Catalog)
    (hex : cat.tableExists = true) :
    (sync_table driver norm uniqNamer tn cols
      (sync_table driver norm uniqNamer tn cols cat).2).1 = [] := by
  have h1 : sync_table driver norm uniqNamer tn cols cat =
      syncDiff driver norm tn cat.columns cols cat := by
    simp [sync_table, hex]
  have hex1 : ((syncDiff driver norm tn cat.columns cols cat).2).tableExists = true := by
    rw [(syncDiff_mono driver norm tn cat.columns cols cat).2.2, hex]
  have hsat := syncDiff_establishes driver norm tn cat.columns cols cat
    (fun cn h => h)
  rw [h1]
  have h2 : sync_table driver norm uniqNamer tn cols
      (syncDiff driver norm tn cat.columns cols cat).2 =
      syncDiff driver norm tn
        ((syncDiff driver norm tn cat.columns cols cat).2).columns cols
        (syncDiff driver norm tn cat.columns cols cat).2 := by
    simp [sync_table, hex1]
  rw [h2, syncDiff_quiescent driver norm tn cols
    (syncDiff driver norm tn cat.columns cols cat).2 hsat]

/-- Witness for `sync_table_idempotent_diff_path` on a concrete existing
table with a unique column and an indexed column. -/
theorem sync_table_idempotent_diff_path_witness :
    (sync_table Drivers.Postgres (fun s => s) (fun t _ => t) "users"
        [⟨"id", "INTEGER", true, false, false, false, false, false, none, none⟩,
         ⟨"email", "TEXT", false, false, false, false, true, false, none, none⟩]
        (sync_table Drivers.Postgres (fun s => s) (fun t _ => t) "users"
          [⟨"id", "INTEGER", true, false, false, false, false, false, none, none⟩,
           ⟨"email", "TEXT", false, false, false, false, true, false, none, none⟩]
          ⟨true, ["id"], []⟩).2).1 = [] :=
  sync_table_idempotent_diff_path Drivers.Postgres (fun s => s) (fun t _ => t)
    "users"
    [⟨"id", "INTEGER", true, false, false, false, false, false, none, none⟩,
     ⟨"email", "TEXT", false, false, false, false, true, false, none, none⟩]
    ⟨true, ["id"], []⟩ rfl
